import Mathlib

/-!
Verification of the prw polling-and-notification core.

Each definition is a shallow embedding of a function of the repository:
- `NormalizeState` embeds `github.NormalizeState` (internal/github/client.go),
  i.e. `strings.ToLower(strings.TrimSpace(state))`, with character-level
  lowering and the whitespace set restricted to the Latin-1 fragment of
  `unicode`. All states handled by the program are ASCII.
- `shouldNotify`, `Watcher.checkPR`, `Watcher.checkAllPRs` embed the watcher
  package; the GitHub client and the notifier are passed in as explicit
  capabilities (functions), matching the interfaces the Go code consumes.
- `Config.AddPR`, `Config.RemovePR`, `normalizeNotificationFilter` and the
  pure defaulting step of `Load` embed the config package.
- `MultiNotifier.Notify` and the broadcast command loop embed the notify
  package and `broadcastCmd`.
-/

namespace PRW

/-! ### Character-level embedding of strings.TrimSpace / strings.ToLower -/

/-- Embeds `unicode.ToLower` on the ASCII fragment: uppercase ASCII letters
map to their lowercase counterparts, every other character is unchanged. -/
def lowerChar (c : Char) : Char :=
  if 65 ≤ c.toNat ∧ c.toNat ≤ 90 then Char.ofNat (c.toNat + 32) else c

/-- Embeds `unicode.IsSpace` on the Latin-1 fragment:
tab, newline, vertical tab, form feed, carriage return, space, NEL, NBSP. -/
def isSpaceChar (c : Char) : Bool :=
  (c.toNat == 32) || (c.toNat == 9) || (c.toNat == 10) || (c.toNat == 11) ||
  (c.toNat == 12) || (c.toNat == 13) || (c.toNat == 133) || (c.toNat == 160)

/-- Embeds `strings.TrimSpace`: drop leading, then trailing, whitespace. -/
def trimSpace (cs : List Char) : List Char :=
  (cs.dropWhile isSpaceChar).rdropWhile isSpaceChar

/-- Embeds `strings.ToLower` (ASCII fragment). -/
def toLowerStr (cs : List Char) : List Char :=
  cs.map lowerChar

/-- Embeds `github.NormalizeState`:
`strings.ToLower(strings.TrimSpace(state))`. -/
def NormalizeState (s : String) : String :=
  ⟨toLowerStr (trimSpace s.data)⟩

/-! ### Data model (config package) -/

/-- Embeds `config.WatchedPR`. `number` is a Go `int`; `LastChecked`
(a `time.Time`) is modelled as an abstract tick counter. -/
structure WatchedPR where
  owner : String
  repo : String
  number : Int
  lastKnownSHA : String
  lastKnownState : String
  lastChecked : Nat
  title : String
deriving DecidableEq, Repr

/-- Embeds `config.Config`. -/
structure Config where
  pollIntervalSeconds : Int
  webhookURL : String
  githubToken : String
  notificationFilter : String
  watchedPRs : List WatchedPR
deriving DecidableEq, Repr

def NotificationFilterChange : String := "change"

def NotificationFilterFail : String := "fail"

def NotificationFilterSuccess : String := "success"

/-- The natural key of a watched entity: (owner, repository, number). -/
def natKey (pr : WatchedPR) : String × String × Int :=
  (pr.owner, pr.repo, pr.number)

/-- Embeds `config.normalizeNotificationFilter`:
lowercase and trim, then default anything unrecognized to `change`. -/
def normalizeNotificationFilter (value : String) : String :=
  let filter : String := ⟨toLowerStr (trimSpace value.data)⟩
  if filter = NotificationFilterFail ∨ filter = NotificationFilterSuccess ∨
      filter = NotificationFilterChange then
    filter
  else
    NotificationFilterChange

/-- Embeds `config.IsValidNotificationFilter`. -/
def IsValidNotificationFilter (value : String) : Bool :=
  let filter : String := ⟨toLowerStr (trimSpace value.data)⟩
  filter == NotificationFilterFail || filter == NotificationFilterSuccess ||
    filter == NotificationFilterChange

/-- Embeds `config.Config.AddPR`: no-op returning false when the natural key
is already present, otherwise append and return true. -/
def Config.AddPR (c : Config) (pr : WatchedPR) : Config × Bool :=
  if c.watchedPRs.any fun existing =>
      existing.owner == pr.owner && existing.repo == pr.repo &&
        existing.number == pr.number then
    (c, false)
  else
    ({ c with watchedPRs := c.watchedPRs ++ [pr] }, true)

/-- The loop body of `config.Config.RemovePR`: delete the first entry with
the given natural key, `none` when absent. -/
def removeFirstPR (owner repo : String) (number : Int) :
    List WatchedPR → Option (List WatchedPR)
  | [] => none
  | pr :: rest =>
    if pr.owner = owner ∧ pr.repo = repo ∧ pr.number = number then
      some rest
    else
      (removeFirstPR owner repo number rest).map (pr :: ·)

/-- Embeds `config.Config.RemovePR`. -/
def Config.RemovePR (c : Config) (owner repo : String) (number : Int) :
    Config × Bool :=
  match removeFirstPR owner repo number c.watchedPRs with
  | some l => ({ c with watchedPRs := l }, true)
  | none => (c, false)

/-- Embeds the pure defaulting step at the end of `config.Load`, applied to
the just-parsed configuration: a zero poll interval becomes 20 and the
notification filter is normalized. (The Go `nil`-slice default has no
counterpart on `List`.) -/
def loadApplyDefaults (cfg : Config) : Config :=
  { cfg with
    pollIntervalSeconds :=
      if cfg.pollIntervalSeconds = 0 then 20 else cfg.pollIntervalSeconds
    notificationFilter := normalizeNotificationFilter cfg.notificationFilter }

/-! ### Filter policy (watcher package) -/

/-- Embeds `watcher.shouldNotify`: replace an invalid filter by `change`,
then dispatch on the exact filter string. -/
def shouldNotify (filter currentState : String) : Bool :=
  let filter := if ¬ IsValidNotificationFilter filter then
    NotificationFilterChange else filter
  if filter = NotificationFilterFail then
    currentState == "failure" || currentState == "error"
  else if filter = NotificationFilterSuccess then
    currentState == "success"
  else
    true

/-! ### Notifier fan-out (notify package) -/

/-- Embeds `notify.StatusChangeEvent`. -/
structure StatusChangeEvent where
  owner : String
  repo : String
  number : Int
  title : String
  previousState : String
  currentState : String
  sha : String
  timestamp : Nat
deriving DecidableEq, Repr

/-- A notifier capability (`notify.Notifier`): `none` models a nil error,
`some msg` a delivery failure. -/
def Notifier : Type :=
  StatusChangeEvent → Option String

/-- Embeds `notify.MultiNotifier.Notify`: call each sink in order and
return the first error encountered, `none` when every sink succeeds. -/
def MultiNotifier.Notify (notifiers : List Notifier)
    (event : StatusChangeEvent) : Option String :=
  match notifiers with
  | [] => none
  | n :: rest =>
    match n event with
    | some err => some err
    | none => MultiNotifier.Notify rest event

/-- The number of sinks whose `Notify` is invoked during one
`MultiNotifier.Notify` call (iterations of the Go loop). -/
def MultiNotifier.attempts (notifiers : List Notifier)
    (event : StatusChangeEvent) : Nat :=
  match notifiers with
  | [] => 0
  | n :: rest =>
    match n event with
    | some _ => 1
    | none => 1 + MultiNotifier.attempts rest event

/-! ### Watcher check algorithm (watcher package) -/

/-- Embeds `github.PullRequest` as far as the watcher consumes it. -/
structure PullRequest where
  number : Int
  title : String
  headSHA : String
deriving DecidableEq, Repr

/-- Embeds `github.CombinedStatus`. -/
structure CombinedStatus where
  state : String
  sha : String
deriving DecidableEq, Repr

/-- The `watcher.GitHubClient` capability: `none` models a fetch error. -/
structure GitHubEnv where
  getPullRequest : String → String → Int → Option PullRequest
  getCombinedStatus : String → String → String → Option CombinedStatus

/-- The observable outcome of one `Watcher.checkPR` call: the entity's
fields after the call, the event handed to the notifier (if any), the
notifier's error (only warned about), and whether `checkPR` returned an
error. -/
structure CheckResult where
  pr : WatchedPR
  event : Option StatusChangeEvent
  notifyErr : Option String
  err : Bool
deriving DecidableEq, Repr

/-- Embeds `watcher.Watcher.checkPR`; `filter` is
`w.config.NotificationFilter` and `now` the current tick. -/
def Watcher.checkPR (env : GitHubEnv) (notifier : Notifier) (filter : String)
    (now : Nat) (pr : WatchedPR) : CheckResult :=
  match env.getPullRequest pr.owner pr.repo pr.number with
  | none => ⟨pr, none, none, true⟩
  | some ghPR =>
    let currentSHA := ghPR.headSHA
    match env.getCombinedStatus pr.owner pr.repo currentSHA with
    | none => ⟨pr, none, none, true⟩
    | some status =>
      let currentState := NormalizeState status.state
      let previousState := NormalizeState pr.lastKnownState
      let pr1 := if ghPR.title ≠ "" ∧ ghPR.title ≠ pr.title then
        { pr with title := ghPR.title } else pr
      if previousState ≠ "" ∧ previousState ≠ currentState ∧
          shouldNotify filter currentState then
        let event : StatusChangeEvent :=
          ⟨pr1.owner, pr1.repo, pr1.number, pr1.title, previousState,
            currentState, currentSHA, now⟩
        ⟨{ pr1 with
            lastKnownSHA := currentSHA
            lastKnownState := currentState
            lastChecked := now }, some event, notifier event, false⟩
      else
        ⟨{ pr1 with
            lastKnownSHA := currentSHA
            lastKnownState := currentState
            lastChecked := now }, none, none, false⟩

/-- Embeds the loop of `watcher.Watcher.checkAllPRs`: every entity is
checked in order; an erroring entity only yields a printed line. Returns
the updated collection and the events delivered. -/
def Watcher.checkAllPRs (env : GitHubEnv) (notifier : Notifier)
    (filter : String) (now : Nat) :
    List WatchedPR → List WatchedPR × List StatusChangeEvent
  | [] => ([], [])
  | pr :: rest =>
    let r := Watcher.checkPR env notifier filter now pr
    let o := Watcher.checkAllPRs env notifier filter now rest
    (r.pr :: o.1, r.event.toList ++ o.2)

/-! ### Broadcast one-shot loop (broadcastCmd) -/

/-- The observable outcome of one iteration of the `broadcastCmd` loop for
one entity: the entity's fields afterwards, the event it constructed when
the inclusion filter selected it, and whether a (non-dry-run) delivery
succeeded (the loop's `anySent` contribution). -/
structure BroadcastResult where
  pr : WatchedPR
  included : Option StatusChangeEvent
  sent : Bool
deriving DecidableEq, Repr

/-- Embeds one iteration of the loop in `broadcastCmd` (`cmd/prw`):
fetch, normalize, refresh title, apply the inclusion filter (`all`,
`changed`, `failing`), preview or deliver, and commit observed state. -/
def broadcastStep (env : GitHubEnv) (notifier : Notifier) (filter : String)
    (dryRun : Bool) (now : Nat) (pr : WatchedPR) : BroadcastResult :=
  match env.getPullRequest pr.owner pr.repo pr.number with
  | none => ⟨pr, none, false⟩
  | some ghPR =>
    match env.getCombinedStatus pr.owner pr.repo ghPR.headSHA with
    | none => ⟨pr, none, false⟩
    | some status =>
      let currentState := NormalizeState status.state
      let previousState := NormalizeState pr.lastKnownState
      let changed := previousState ≠ "" ∧ previousState ≠ currentState
      let pr1 := if ghPR.title ≠ "" ∧ ghPR.title ≠ pr.title then
        { pr with title := ghPR.title } else pr
      let committed : WatchedPR :=
        { pr1 with
          lastKnownSHA := ghPR.headSHA
          lastKnownState := currentState
          lastChecked := now }
      if filter = "changed" ∧ ¬ changed then
        ⟨committed, none, false⟩
      else if filter = "failing" ∧ currentState ≠ "failure" ∧
          currentState ≠ "error" then
        ⟨committed, none, false⟩
      else
        let event : StatusChangeEvent :=
          ⟨pr1.owner, pr1.repo, pr1.number, pr1.title, previousState,
            currentState, ghPR.headSHA, now⟩
        if dryRun then
          ⟨committed, some event, false⟩
        else
          ⟨committed, some event, (notifier event).isNone⟩

/-! ### Watch-store operation sequences (for the duplicate-free invariant) -/

/-- A mutation of the watch store: one `AddPR` or one `RemovePR` call. -/
inductive StoreOp where
  | add (pr : WatchedPR)
  | remove (owner repo : String) (number : Int)
deriving DecidableEq, Repr

/-- Apply one store operation, keeping the resulting collection. -/
def applyOp (c : Config) : StoreOp → Config
  | .add pr => (Config.AddPR c pr).1
  | .remove owner repo number => (Config.RemovePR c owner repo number).1

/-- Apply a sequence of add/remove operations. -/
def applyOps (c : Config) (ops : List StoreOp) : Config :=
  ops.foldl applyOp c

/-! ### Concrete fixtures used by the witnesses -/

/-- A never-checked entity. -/
def prA : WatchedPR := ⟨"octo", "hello", 1, "", "", 0, ""⟩

/-- An entity whose last observed state is `pending`. -/
def prB : WatchedPR := ⟨"octo", "hello", 2, "oldsha", "pending", 3, "B"⟩

/-- An entity whose last observed state is `success`. -/
def prC : WatchedPR := ⟨"octo", "world", 7, "sha0", "success", 3, "C"⟩

/-- An environment where `prA` and `prB` resolve and `prC` does not:
`prA`'s head commit has state `Success`, `prB`'s has state `failure`. -/
def envW : GitHubEnv where
  getPullRequest := fun owner repo number =>
    if owner = "octo" ∧ repo = "hello" ∧ number = 1 then
      some ⟨1, "Title A", "shaA"⟩
    else if owner = "octo" ∧ repo = "hello" ∧ number = 2 then
      some ⟨2, "Title B", "shaB"⟩
    else
      none
  getCombinedStatus := fun _ _ sha =>
    if sha = "shaA" then some ⟨"Success", "shaA"⟩
    else if sha = "shaB" then some ⟨"failure", "shaB"⟩
    else none

/-- A sink that always succeeds. -/
def sinkOK : Notifier := fun _ => none

/-- A sink that always fails. -/
def sinkFail : Notifier := fun _ => some "boom"

/-- A sample status-change event. -/
def evW : StatusChangeEvent :=
  ⟨"octo", "hello", 1, "Title A", "pending", "success", "shaA", 5⟩

/-- A configuration holding `prB` only. -/
def cfgW : Config := ⟨20, "", "", "change", [prB]⟩

/-- A just-parsed configuration with a zero poll interval and a
non-normalized filter string. -/
def cfgZero : Config := ⟨0, "", "", " FAIL ", []⟩

/-! ### Normalization lemmas -/

theorem char_toNat_ofNat_valid (n : Nat) (h : n.isValidChar) :
    (Char.ofNat n).toNat = n := by
  simp [Char.ofNat, h, Char.ofNatAux, Char.toNat, UInt32.toNat, BitVec.toNat_ofNatLt]

theorem toNat_lowerChar (c : Char) :
    (lowerChar c).toNat =
      if 65 ≤ c.toNat ∧ c.toNat ≤ 90 then c.toNat + 32 else c.toNat := by
  unfold lowerChar
  split <;> rename_i h
  · exact char_toNat_ofNat_valid _ (Or.inl (by omega))
  · rfl

theorem lowerChar_eq_self (c : Char) (h : ¬(65 ≤ c.toNat ∧ c.toNat ≤ 90)) :
    lowerChar c = c := by
  unfold lowerChar
  rw [if_neg h]

theorem lowerChar_idem (c : Char) : lowerChar (lowerChar c) = lowerChar c := by
  by_cases h : 65 ≤ c.toNat ∧ c.toNat ≤ 90
  · have h1 : (lowerChar c).toNat = c.toNat + 32 := by rw [toNat_lowerChar, if_pos h]
    exact lowerChar_eq_self _ (by omega)
  · rw [lowerChar_eq_self c h]
    exact lowerChar_eq_self c h

theorem isSpaceChar_lowerChar (c : Char) :
    isSpaceChar (lowerChar c) = isSpaceChar c := by
  unfold isSpaceChar
  rw [toNat_lowerChar]
  split <;> rename_i h
  · refine Bool.eq_iff_iff.mpr ?_
    simp only [Bool.or_eq_true, beq_iff_eq]
    constructor <;> intro hc <;> omega
  · rfl

theorem dropWhile_map_comm (f : Char → Char) (p : Char → Bool)
    (hp : ∀ c, p (f c) = p c) (cs : List Char) :
    (cs.map f).dropWhile p = (cs.dropWhile p).map f := by
  induction cs with
  | nil => rfl
  | cons c cs ih =>
    by_cases h : p c
    · simpa [List.dropWhile_cons, hp, h] using ih
    · simp [List.dropWhile_cons, hp, h]

theorem rdropWhile_map_comm (f : Char → Char) (p : Char → Bool)
    (hp : ∀ c, p (f c) = p c) (cs : List Char) :
    (cs.map f).rdropWhile p = (cs.rdropWhile p).map f := by
  unfold List.rdropWhile
  rw [← List.map_reverse, dropWhile_map_comm f p hp, List.map_reverse]

theorem trimSpace_map_lowerChar (cs : List Char) :
    trimSpace (toLowerStr cs) = toLowerStr (trimSpace cs) := by
  unfold trimSpace toLowerStr
  rw [dropWhile_map_comm lowerChar isSpaceChar isSpaceChar_lowerChar,
    rdropWhile_map_comm lowerChar isSpaceChar isSpaceChar_lowerChar]

theorem not_head_of_dropWhile_cons (p : Char → Bool) (c : Char) (x : List Char)
    (h : List.dropWhile p (c :: x) = c :: x) : p c = false := by
  by_cases hc : p c
  · rw [List.dropWhile_cons, if_pos hc] at h
    have hle := (List.dropWhile_sublist (p := p) (l := x)).length_le
    rw [h] at hle
    simp at hle
  · simpa using hc

theorem dropWhile_rdropWhile_of_dropped (p : Char → Bool) (l : List Char)
    (hl : l.dropWhile p = l) : (l.rdropWhile p).dropWhile p = l.rdropWhile p := by
  obtain ⟨t, ht⟩ := List.rdropWhile_prefix p l
  cases hr : l.rdropWhile p with
  | nil => rfl
  | cons c rest =>
    rw [hr] at ht
    have hc : p c = false := by
      apply not_head_of_dropWhile_cons p c (rest ++ t)
      have hl' : l = c :: (rest ++ t) := by rw [← ht]; rfl
      rw [← hl']
      exact hl
    simp [List.dropWhile_cons, hc]

theorem trimSpace_idem (cs : List Char) :
    trimSpace (trimSpace cs) = trimSpace cs := by
  unfold trimSpace
  rw [dropWhile_rdropWhile_of_dropped isSpaceChar _ (List.dropWhile_idempotent _ _),
    List.rdropWhile_idempotent]

theorem toLowerStr_idem (cs : List Char) :
    toLowerStr (toLowerStr cs) = toLowerStr cs := by
  unfold toLowerStr
  rw [List.map_map]
  exact List.map_congr_left fun c _ => lowerChar_idem c

/-- C10 helper: `NormalizeState` is idempotent. -/
theorem normalizeState_idem (s : String) :
    NormalizeState (NormalizeState s) = NormalizeState s := by
  show (⟨toLowerStr (trimSpace (toLowerStr (trimSpace s.data)))⟩ : String) =
    ⟨toLowerStr (trimSpace s.data)⟩
  rw [trimSpace_map_lowerChar, toLowerStr_idem, trimSpace_idem]

/-! ### Check-algorithm lemmas -/

/-- A fetch failure for one entity: the pull-request fetch errors, or it
succeeds and the status fetch errors. -/
def fetchFails (env : GitHubEnv) (pr : WatchedPR) : Prop :=
  env.getPullRequest pr.owner pr.repo pr.number = none ∨
  ∃ ghPR, env.getPullRequest pr.owner pr.repo pr.number = some ghPR ∧
    env.getCombinedStatus pr.owner pr.repo ghPR.headSHA = none

theorem checkPR_of_fetchFails (env : GitHubEnv) (notifier : Notifier)
    (filter : String) (now : Nat) (pr : WatchedPR) (h : fetchFails env pr) :
    Watcher.checkPR env notifier filter now pr = ⟨pr, none, none, true⟩ := by
  rcases h with h | ⟨ghPR, hpr, hst⟩
  · simp [Watcher.checkPR, h]
  · simp [Watcher.checkPR, hpr, hst]

theorem checkPR_commit (env : GitHubEnv) (notifier : Notifier)
    (filter : String) (now : Nat) (pr : WatchedPR) (ghPR : PullRequest)
    (status : CombinedStatus)
    (hpr : env.getPullRequest pr.owner pr.repo pr.number = some ghPR)
    (hst : env.getCombinedStatus pr.owner pr.repo ghPR.headSHA = some status) :
    (Watcher.checkPR env notifier filter now pr).pr.lastKnownSHA = ghPR.headSHA ∧
    (Watcher.checkPR env notifier filter now pr).pr.lastKnownState =
      NormalizeState status.state ∧
    (Watcher.checkPR env notifier filter now pr).pr.lastChecked = now := by
  simp only [Watcher.checkPR, hpr, hst]
  refine ⟨?_, ?_, ?_⟩ <;> (split <;> rfl)

theorem checkPR_key (env : GitHubEnv) (notifier : Notifier)
    (filter : String) (now : Nat) (pr : WatchedPR) :
    (Watcher.checkPR env notifier filter now pr).pr.owner = pr.owner ∧
    (Watcher.checkPR env notifier filter now pr).pr.repo = pr.repo ∧
    (Watcher.checkPR env notifier filter now pr).pr.number = pr.number := by
  cases hpr : env.getPullRequest pr.owner pr.repo pr.number with
  | none => simp [Watcher.checkPR, hpr]
  | some ghPR =>
    cases hst : env.getCombinedStatus pr.owner pr.repo ghPR.headSHA with
    | none => simp [Watcher.checkPR, hpr, hst]
    | some status =>
      simp only [Watcher.checkPR, hpr, hst]
      refine ⟨?_, ?_, ?_⟩ <;> (split <;> (split <;> rfl))

theorem checkPR_event_none_of_eq (env : GitHubEnv) (notifier : Notifier)
    (filter : String) (now : Nat) (pr : WatchedPR) (ghPR : PullRequest)
    (status : CombinedStatus)
    (hpr : env.getPullRequest pr.owner pr.repo pr.number = some ghPR)
    (hst : env.getCombinedStatus pr.owner pr.repo ghPR.headSHA = some status)
    (heq : NormalizeState pr.lastKnownState = NormalizeState status.state) :
    (Watcher.checkPR env notifier filter now pr).event = none := by
  simp only [Watcher.checkPR, hpr, hst, heq]
  rw [if_neg (by simp)]

theorem checkPR_event_isSome (env : GitHubEnv) (notifier : Notifier)
    (filter : String) (now : Nat) (pr : WatchedPR) (ghPR : PullRequest)
    (status : CombinedStatus)
    (hpr : env.getPullRequest pr.owner pr.repo pr.number = some ghPR)
    (hst : env.getCombinedStatus pr.owner pr.repo ghPR.headSHA = some status)
    (hne : NormalizeState pr.lastKnownState ≠ "")
    (hdiff : NormalizeState pr.lastKnownState ≠ NormalizeState status.state) :
    (Watcher.checkPR env notifier filter now pr).event.isSome =
      shouldNotify filter (NormalizeState status.state) := by
  simp only [Watcher.checkPR, hpr, hst]
  by_cases hs : shouldNotify filter (NormalizeState status.state) = true
  · rw [if_pos ⟨hne, hdiff, hs⟩]
    simp [hs]
  · rw [if_neg (by intro hand; exact hs hand.2.2)]
    simp [Bool.eq_false_iff.mpr hs]

theorem checkAllPRs_fst (env : GitHubEnv) (notifier : Notifier)
    (filter : String) (now : Nat) (prs : List WatchedPR) :
    (Watcher.checkAllPRs env notifier filter now prs).1 =
      prs.map fun pr => (Watcher.checkPR env notifier filter now pr).pr := by
  induction prs with
  | nil => rfl
  | cons pr rest ih =>
    simp only [Watcher.checkAllPRs, List.map_cons]
    rw [ih]

theorem checkAllPRs_snd_mem (env : GitHubEnv) (notifier : Notifier)
    (filter : String) (now : Nat) (prs : List WatchedPR) (pr : WatchedPR)
    (e : StatusChangeEvent) (hmem : pr ∈ prs)
    (he : (Watcher.checkPR env notifier filter now pr).event = some e) :
    e ∈ (Watcher.checkAllPRs env notifier filter now prs).2 := by
  induction prs with
  | nil => cases hmem
  | cons q rest ih =>
    simp only [Watcher.checkAllPRs]
    rcases List.mem_cons.mp hmem with hq | hrest
    · subst hq
      rw [he]
      exact List.mem_append_left _ (List.mem_singleton.mpr rfl)
    · exact List.mem_append_right _ (ih hrest)

/-! ### Notifier fan-out lemmas -/

theorem multiNotify_none_iff (ns : List Notifier) (e : StatusChangeEvent) :
    MultiNotifier.Notify ns e = none ↔ ∀ n ∈ ns, n e = none := by
  induction ns with
  | nil => simp [MultiNotifier.Notify]
  | cons n rest ih =>
    unfold MultiNotifier.Notify
    cases hn : n e with
    | some err => simp [hn]
    | none => simpa [hn] using ih

theorem multiAttempts_all_ok (ns : List Notifier) (e : StatusChangeEvent)
    (h : ∀ n ∈ ns, n e = none) :
    MultiNotifier.attempts ns e = ns.length := by
  induction ns with
  | nil => rfl
  | cons n rest ih =>
    unfold MultiNotifier.attempts
    rw [h n (List.mem_cons_self n rest)]
    rw [ih fun m hm => h m (List.mem_cons_of_mem n hm)]
    simp [Nat.add_comm]

theorem multiNotify_first_fail (pre post : List Notifier) (nf : Notifier)
    (e : StatusChangeEvent) (hpre : ∀ n ∈ pre, n e = none)
    (hf : (nf e).isSome) :
    MultiNotifier.Notify (pre ++ nf :: post) e = nf e ∧
    MultiNotifier.attempts (pre ++ nf :: post) e = pre.length + 1 := by
  induction pre with
  | nil =>
    cases hn : nf e with
    | none => rw [hn] at hf; cases hf
    | some err =>
      constructor
      · simp [MultiNotifier.Notify, hn]
      · simp [MultiNotifier.attempts, hn]
  | cons n rest ih =>
    have hn : n e = none := hpre n (List.mem_cons_self n rest)
    have ih' := ih fun m hm => hpre m (List.mem_cons_of_mem n hm)
    constructor
    · simpa [MultiNotifier.Notify, hn] using ih'.1
    · simp only [List.cons_append, MultiNotifier.attempts, hn, List.append_eq]
      rw [ih'.2]
      simp [Nat.add_comm]

/-! ### Watch-store lemmas -/

theorem addPR_any_iff (c : Config) (pr : WatchedPR) :
    (c.watchedPRs.any fun existing =>
      existing.owner == pr.owner && existing.repo == pr.repo &&
        existing.number == pr.number) = true ↔
    ∃ e ∈ c.watchedPRs, natKey e = natKey pr := by
  rw [List.any_eq_true]
  constructor
  · rintro ⟨e, hmem, he⟩
    refine ⟨e, hmem, ?_⟩
    simp only [Bool.and_eq_true, beq_iff_eq] at he
    simp [natKey, he.1.1, he.1.2, he.2]
  · rintro ⟨e, hmem, he⟩
    refine ⟨e, hmem, ?_⟩
    simp only [natKey, Prod.mk.injEq] at he
    simp [he.1, he.2.1, he.2.2]

theorem addPR_of_present (c : Config) (pr : WatchedPR)
    (h : ∃ e ∈ c.watchedPRs, natKey e = natKey pr) :
    Config.AddPR c pr = (c, false) := by
  unfold Config.AddPR
  rw [if_pos ((addPR_any_iff c pr).mpr h)]

theorem addPR_of_absent (c : Config) (pr : WatchedPR)
    (h : ¬ ∃ e ∈ c.watchedPRs, natKey e = natKey pr) :
    Config.AddPR c pr = ({ c with watchedPRs := c.watchedPRs ++ [pr] }, true) := by
  unfold Config.AddPR
  rw [if_neg fun hb => h ((addPR_any_iff c pr).mp hb)]

theorem addPR_nodup (c : Config) (pr : WatchedPR)
    (h : (c.watchedPRs.map natKey).Nodup) :
    (((Config.AddPR c pr).1).watchedPRs.map natKey).Nodup := by
  by_cases hp : ∃ e ∈ c.watchedPRs, natKey e = natKey pr
  · rw [addPR_of_present c pr hp]
    exact h
  · rw [addPR_of_absent c pr hp]
    simp only [List.map_append, List.map_cons, List.map_nil, List.nodup_append]
    refine ⟨h, List.nodup_singleton _, ?_⟩
    intro k hk hk'
    simp only [List.mem_singleton] at hk'
    subst hk'
    obtain ⟨e, hmem, he⟩ := List.mem_map.mp hk
    exact hp ⟨e, hmem, he⟩

theorem removeFirstPR_sublist (owner repo : String) (number : Int)
    (l l' : List WatchedPR) (h : removeFirstPR owner repo number l = some l') :
    List.Sublist l' l := by
  induction l generalizing l' with
  | nil => cases h
  | cons pr rest ih =>
    unfold removeFirstPR at h
    split at h
    · cases h
      exact List.sublist_cons_self pr rest
    · cases hr : removeFirstPR owner repo number rest with
      | none => rw [hr] at h; cases h
      | some l'' =>
        rw [hr] at h
        have h' : pr :: l'' = l' := Option.some.inj h
        subst h'
        exact (ih l'' hr).cons₂ pr

theorem removePR_nodup (c : Config) (owner repo : String) (number : Int)
    (h : (c.watchedPRs.map natKey).Nodup) :
    (((Config.RemovePR c owner repo number).1).watchedPRs.map natKey).Nodup := by
  unfold Config.RemovePR
  cases hr : removeFirstPR owner repo number c.watchedPRs with
  | none => exact h
  | some l' =>
    exact ((removeFirstPR_sublist owner repo number _ l' hr).map natKey).nodup h

theorem applyOps_nodup (ops : List StoreOp) (c : Config)
    (h : (c.watchedPRs.map natKey).Nodup) :
    (((applyOps c ops)).watchedPRs.map natKey).Nodup := by
  induction ops generalizing c with
  | nil => exact h
  | cons op rest ih =>
    show (((applyOps (applyOp c op) rest)).watchedPRs.map natKey).Nodup
    refine ih _ ?_
    cases op with
    | add pr => exact addPR_nodup c pr h
    | remove owner repo number => exact removePR_nodup c owner repo number h

/-! ### Filter-policy case lemmas -/

theorem shouldNotify_fail (c : String) :
    shouldNotify "fail" c = (c == "failure" || c == "error") := by
  simp only [shouldNotify]
  rw [if_pos (by decide)]

theorem shouldNotify_success (c : String) :
    shouldNotify "success" c = (c == "success") := by
  simp only [shouldNotify]
  rw [if_neg (by decide), if_pos (by decide)]

theorem shouldNotify_change (c : String) : shouldNotify "change" c = true := by
  simp only [shouldNotify]
  rw [if_neg (by decide), if_neg (by decide)]

theorem shouldNotify_invalid (m c : String)
    (hm : IsValidNotificationFilter m = false) : shouldNotify m c = true := by
  simp only [shouldNotify]
  have hfil : (if ¬ IsValidNotificationFilter m = true then
      NotificationFilterChange else m) = NotificationFilterChange :=
    if_pos (by simp [hm])
  rw [hfil, if_neg (by decide), if_neg (by decide)]

/-! ### Broadcast lemmas -/

theorem broadcast_commit (env : GitHubEnv) (notifier : Notifier) (filter : String)
    (dryRun : Bool) (now : Nat) (pr : WatchedPR) (ghPR : PullRequest)
    (status : CombinedStatus)
    (hpr : env.getPullRequest pr.owner pr.repo pr.number = some ghPR)
    (hst : env.getCombinedStatus pr.owner pr.repo ghPR.headSHA = some status) :
    (broadcastStep env notifier filter dryRun now pr).pr.lastKnownSHA = ghPR.headSHA ∧
    (broadcastStep env notifier filter dryRun now pr).pr.lastKnownState =
      NormalizeState status.state ∧
    (broadcastStep env notifier filter dryRun now pr).pr.lastChecked = now := by
  simp only [broadcastStep, hpr, hst]
  refine ⟨?_, ?_, ?_⟩ <;> (split_ifs <;> rfl)

theorem broadcast_included_all (env : GitHubEnv) (notifier : Notifier)
    (dryRun : Bool) (now : Nat) (pr : WatchedPR) (ghPR : PullRequest)
    (status : CombinedStatus)
    (hpr : env.getPullRequest pr.owner pr.repo pr.number = some ghPR)
    (hst : env.getCombinedStatus pr.owner pr.repo ghPR.headSHA = some status) :
    (broadcastStep env notifier "all" dryRun now pr).included.isSome = true := by
  simp only [broadcastStep, hpr, hst]
  rw [if_neg (fun h => absurd h.1 (by decide)),
    if_neg (fun h => absurd h.1 (by decide))]
  split_ifs <;> simp

theorem broadcast_included_changed (env : GitHubEnv) (notifier : Notifier)
    (dryRun : Bool) (now : Nat) (pr : WatchedPR) (ghPR : PullRequest)
    (status : CombinedStatus)
    (hpr : env.getPullRequest pr.owner pr.repo pr.number = some ghPR)
    (hst : env.getCombinedStatus pr.owner pr.repo ghPR.headSHA = some status) :
    ((broadcastStep env notifier "changed" dryRun now pr).included.isSome = true ↔
      (NormalizeState pr.lastKnownState ≠ "" ∧
       NormalizeState pr.lastKnownState ≠ NormalizeState status.state)) := by
  by_cases hch : NormalizeState pr.lastKnownState ≠ "" ∧
      NormalizeState pr.lastKnownState ≠ NormalizeState status.state
  · simp only [broadcastStep, hpr, hst]
    rw [if_neg (fun h => h.2 hch), if_neg (fun h => absurd h.1 (by decide))]
    split_ifs <;> simpa using hch
  · simp only [broadcastStep, hpr, hst]
    rw [if_pos ⟨trivial, hch⟩]
    simpa using hch

theorem broadcast_included_failing (env : GitHubEnv) (notifier : Notifier)
    (dryRun : Bool) (now : Nat) (pr : WatchedPR) (ghPR : PullRequest)
    (status : CombinedStatus)
    (hpr : env.getPullRequest pr.owner pr.repo pr.number = some ghPR)
    (hst : env.getCombinedStatus pr.owner pr.repo ghPR.headSHA = some status) :
    ((broadcastStep env notifier "failing" dryRun now pr).included.isSome = true ↔
      (NormalizeState status.state = "failure" ∨
       NormalizeState status.state = "error")) := by
  by_cases hf : NormalizeState status.state = "failure" ∨
      NormalizeState status.state = "error"
  · simp only [broadcastStep, hpr, hst]
    rw [if_neg (fun h => absurd h.1 (by decide)),
      if_neg (fun h => hf.elim h.2.1 h.2.2)]
    split_ifs <;> simpa using hf
  · simp only [broadcastStep, hpr, hst]
    push_neg at hf
    rw [if_neg (fun h => absurd h.1 (by decide)), if_pos ⟨trivial, hf.1, hf.2⟩]
    simpa using hf

/-! ### Configuration-normalization lemmas -/

theorem normalizeNotificationFilter_of_invalid (v : String)
    (hv : IsValidNotificationFilter v = false) :
    normalizeNotificationFilter v = NotificationFilterChange := by
  unfold normalizeNotificationFilter
  rw [if_neg]
  intro hor
  unfold IsValidNotificationFilter at hv
  simp only [Bool.or_eq_false_iff, beq_eq_false_iff_ne, ne_eq] at hv
  rcases hor with h | h | h
  exacts [hv.1.1 h, hv.1.2 h, hv.2 h]

theorem normalizeNotificationFilter_of_valid (v : String)
    (hv : IsValidNotificationFilter v = true) :
    normalizeNotificationFilter v = ⟨toLowerStr (trimSpace v.data)⟩ := by
  unfold normalizeNotificationFilter
  rw [if_pos]
  unfold IsValidNotificationFilter at hv
  simp only [Bool.or_eq_true, beq_iff_eq] at hv
  rcases hv with (h | h) | h
  exacts [Or.inl h, Or.inr (Or.inl h), Or.inr (Or.inr h)]

/-! ### Claims -/

/-- C10: state normalization is idempotent: for every input string `s`,
`NormalizeState (NormalizeState s) = NormalizeState s`, so comparing stored
and fetched states is insensitive to repeated normalization. -/
theorem C10_normalizeState_idempotent (s : String) :
    NormalizeState (NormalizeState s) = NormalizeState s :=
  normalizeState_idem s

/-- C2: for a watched entity whose stored `lastKnownState` is empty
(never checked), a check whose two fetches succeed produces no notification,
for every fetched state and every configured mode, and afterwards the stored
`lastKnownState` equals the freshly fetched state normalized by lowercasing
and trimming. -/
theorem C2_first_check_baseline (env : GitHubEnv) (notifier : Notifier)
    (filter : String) (now : Nat) (pr : WatchedPR) (ghPR : PullRequest)
    (status : CombinedStatus)
    (h0 : pr.lastKnownState = "")
    (hpr : env.getPullRequest pr.owner pr.repo pr.number = some ghPR)
    (hst : env.getCombinedStatus pr.owner pr.repo ghPR.headSHA = some status) :
    (Watcher.checkPR env notifier filter now pr).event = none ∧
    (Watcher.checkPR env notifier filter now pr).pr.lastKnownState =
      NormalizeState status.state := by
  have hprev : NormalizeState pr.lastKnownState = "" := by rw [h0]; rfl
  simp only [Watcher.checkPR, hpr, hst, hprev]
  rw [if_neg (by simp)]
  constructor
  · rfl
  · split <;> rfl

/-- C2 witness: checking the never-checked entity `prA` under mode `change`
emits nothing and stores the normalized fetched state. -/
theorem C2_witness :
    (Watcher.checkPR envW sinkOK "change" 5 prA).event = none ∧
    (Watcher.checkPR envW sinkOK "change" 5 prA).pr.lastKnownState =
      NormalizeState "Success" :=
  C2_first_check_baseline envW sinkOK "change" 5 prA ⟨1, "Title A", "shaA"⟩
    ⟨"Success", "shaA"⟩ rfl (by decide) (by decide)

/-- C3: for a qualifying transition (previous state non-empty and different
from the fetched state), the check notifies exactly when `shouldNotify`
says so, and `shouldNotify` decides: mode `fail` iff the current state is
`failure` or `error`; mode `success` iff it is `success`; mode `change`
always; any mode that is unrecognized after normalization always. -/
theorem C3_transition_filter_policy (env : GitHubEnv) (notifier : Notifier)
    (filter : String) (now : Nat) (pr : WatchedPR) (ghPR : PullRequest)
    (status : CombinedStatus)
    (hpr : env.getPullRequest pr.owner pr.repo pr.number = some ghPR)
    (hst : env.getCombinedStatus pr.owner pr.repo ghPR.headSHA = some status)
    (hne : NormalizeState pr.lastKnownState ≠ "")
    (hdiff : NormalizeState pr.lastKnownState ≠ NormalizeState status.state) :
    ((Watcher.checkPR env notifier filter now pr).event.isSome =
      shouldNotify filter (NormalizeState status.state)) ∧
    (shouldNotify "fail" (NormalizeState status.state) =
      (NormalizeState status.state == "failure" ||
       NormalizeState status.state == "error")) ∧
    (shouldNotify "success" (NormalizeState status.state) =
      (NormalizeState status.state == "success")) ∧
    (shouldNotify "change" (NormalizeState status.state) = true) ∧
    (IsValidNotificationFilter filter = false →
      shouldNotify filter (NormalizeState status.state) = true) :=
  ⟨checkPR_event_isSome env notifier filter now pr ghPR status hpr hst hne hdiff,
   shouldNotify_fail _, shouldNotify_success _, shouldNotify_change _,
   fun hm => shouldNotify_invalid filter _ hm⟩

/-- C3 witness: `prB` transitions from `pending` to `failure` under mode
`fail`; the check emits exactly when the policy says so. -/
theorem C3_witness :
    (Watcher.checkPR envW sinkOK "fail" 5 prB).event.isSome =
      shouldNotify "fail" (NormalizeState "failure") :=
  (C3_transition_filter_policy envW sinkOK "fail" 5 prB ⟨2, "Title B", "shaB"⟩
    ⟨"failure", "shaB"⟩ (by decide) (by decide) (by decide) (by decide)).1

/-- C4: when both fetches succeed, the check commits the fetched revision,
the normalized state and the fresh timestamp, for every notifier — in
particular one whose `Notify` fails — and the committed entity does not
depend on the notifier at all. -/
theorem C4_unconditional_commit (env : GitHubEnv) (notifier : Notifier)
    (filter : String) (now : Nat) (pr : WatchedPR) (ghPR : PullRequest)
    (status : CombinedStatus)
    (hpr : env.getPullRequest pr.owner pr.repo pr.number = some ghPR)
    (hst : env.getCombinedStatus pr.owner pr.repo ghPR.headSHA = some status) :
    (Watcher.checkPR env notifier filter now pr).pr.lastKnownSHA = ghPR.headSHA ∧
    (Watcher.checkPR env notifier filter now pr).pr.lastKnownState =
      NormalizeState status.state ∧
    (Watcher.checkPR env notifier filter now pr).pr.lastChecked = now ∧
    ∀ notifier2 : Notifier,
      (Watcher.checkPR env notifier2 filter now pr).pr =
        (Watcher.checkPR env notifier filter now pr).pr := by
  obtain ⟨ha, hb, hc⟩ :=
    checkPR_commit env notifier filter now pr ghPR status hpr hst
  refine ⟨ha, hb, hc, ?_⟩
  intro notifier2
  simp only [Watcher.checkPR, hpr, hst]
  split_ifs <;> rfl

/-- C4 witness: with the always-failing sink, `prB`'s stored fields still
reflect the freshly fetched revision and state. -/
theorem C4_witness :
    (Watcher.checkPR envW sinkFail "change" 5 prB).pr.lastKnownSHA = "shaB" ∧
    (Watcher.checkPR envW sinkFail "change" 5 prB).pr.lastKnownState =
      NormalizeState "failure" ∧
    (Watcher.checkPR envW sinkFail "change" 5 prB).pr.lastChecked = 5 := by
  have h := C4_unconditional_commit envW sinkFail "change" 5 prB
    ⟨2, "Title B", "shaB"⟩ ⟨"failure", "shaB"⟩ (by decide) (by decide)
  exact ⟨h.1, h.2.1, h.2.2.1⟩

/-- C1 counterexample: with two configured sinks whose first fails, the
fan-out attempts only one of the two sinks — the second is never invoked —
refuting "each sink is still attempted independently of a prior sink's
outcome". -/
theorem C1_counterexample :
    MultiNotifier.attempts [sinkFail, sinkOK] evW = 1 ∧
    ([sinkFail, sinkOK] : List Notifier).length = 2 ∧
    MultiNotifier.Notify [sinkFail, sinkOK] evW = some "boom" := by
  exact ⟨rfl, rfl, rfl⟩

/-- C1 (amended): the fan-out delivers to the sinks in the fixed configured
order but stops at the first failing sink: it returns success iff every sink
succeeds (then all sinks are attempted), and when the sinks up to the first
failing one succeed it returns that sink's failure, having attempted only
the sinks up to and including it. -/
theorem C1_amended_fanout (ns : List Notifier) (e : StatusChangeEvent) :
    (MultiNotifier.Notify ns e = none ↔ ∀ n ∈ ns, n e = none) ∧
    ((∀ n ∈ ns, n e = none) → MultiNotifier.attempts ns e = ns.length) ∧
    ∀ pre nf post, ns = pre ++ nf :: post → (∀ n ∈ pre, n e = none) →
      (nf e).isSome = true →
      MultiNotifier.Notify ns e = nf e ∧
      MultiNotifier.attempts ns e = pre.length + 1 := by
  refine ⟨multiNotify_none_iff ns e, multiAttempts_all_ok ns e, ?_⟩
  rintro pre nf post rfl hpre hf
  exact multiNotify_first_fail pre post nf e hpre hf

/-- C1 witness: three sinks, the middle one failing: the call fails with the
middle sink's error after attempting exactly two sinks. -/
theorem C1_witness :
    MultiNotifier.Notify [sinkOK, sinkFail, sinkOK] evW = some "boom" ∧
    MultiNotifier.attempts [sinkOK, sinkFail, sinkOK] evW = 2 := by
  have h := (C1_amended_fanout [sinkOK, sinkFail, sinkOK] evW).2.2
    [sinkOK] sinkFail [sinkOK] rfl (by decide) (by decide)
  exact ⟨h.1, h.2⟩

/-- C5: in a cycle, if one entity's fetch fails, that entity's stored fields
are left unchanged while every entity is still evaluated: the resulting
collection is the entity-wise result of `checkPR`, and any event a
qualifying entity produces is delivered. -/
theorem C5_cycle_isolation (env : GitHubEnv) (notifier : Notifier)
    (filter : String) (now : Nat) (prs : List WatchedPR) (i : Nat)
    (hi : i < prs.length) (hfail : fetchFails env (prs.get ⟨i, hi⟩)) :
    (Watcher.checkAllPRs env notifier filter now prs).1.length = prs.length ∧
    (∀ hi2 : i < (Watcher.checkAllPRs env notifier filter now prs).1.length,
      (Watcher.checkAllPRs env notifier filter now prs).1.get ⟨i, hi2⟩ =
        prs.get ⟨i, hi⟩) ∧
    (∀ j (hj : j < prs.length)
        (hj2 : j < (Watcher.checkAllPRs env notifier filter now prs).1.length),
      (Watcher.checkAllPRs env notifier filter now prs).1.get ⟨j, hj2⟩ =
        (Watcher.checkPR env notifier filter now (prs.get ⟨j, hj⟩)).pr) ∧
    ∀ j (hj : j < prs.length) e,
      (Watcher.checkPR env notifier filter now (prs.get ⟨j, hj⟩)).event = some e →
      e ∈ (Watcher.checkAllPRs env notifier filter now prs).2 := by
  have hfst := checkAllPRs_fst env notifier filter now prs
  have hlen : (Watcher.checkAllPRs env notifier filter now prs).1.length =
      prs.length := by rw [hfst, List.length_map]
  have hget : ∀ j (hj : j < prs.length)
      (hj2 : j < (Watcher.checkAllPRs env notifier filter now prs).1.length),
      (Watcher.checkAllPRs env notifier filter now prs).1.get ⟨j, hj2⟩ =
        (Watcher.checkPR env notifier filter now (prs.get ⟨j, hj⟩)).pr := by
    intro j hj hj2
    simp only [hfst, List.get_eq_getElem, List.getElem_map]
  refine ⟨hlen, ?_, hget, ?_⟩
  · intro hi2
    rw [hget i hi hi2, checkPR_of_fetchFails env notifier filter now _ hfail]
  · intro j hj e he
    exact checkAllPRs_snd_mem env notifier filter now prs _ e
      (prs.get_mem j hj) he

/-- C5 witness: a cycle over `[prC, prB]` where `prC`'s fetch fails leaves
`prC` untouched and still delivers `prB`'s failure event. -/
theorem C5_witness :
    (Watcher.checkAllPRs envW sinkOK "change" 5 [prC, prB]).1.get
      ⟨0, by decide⟩ = prC ∧
    (⟨"octo", "hello", 2, "Title B", "pending", "failure", "shaB", 5⟩ :
      StatusChangeEvent) ∈ (Watcher.checkAllPRs envW sinkOK "change" 5
        [prC, prB]).2 := by
  have h := C5_cycle_isolation envW sinkOK "change" 5 [prC, prB] 0 (by decide)
    (Or.inl (by decide))
  exact ⟨h.2.1 (by decide), h.2.2.2 1 (by decide) _ (by decide)⟩

/-- C6: `AddPR` is a no-op returning false when the natural key is present
and appends returning true otherwise; consequently a store whose natural
keys are duplicate-free keeps that invariant under any sequence of add and
remove operations. -/
theorem C6_store_key_unique (c : Config) (pr : WatchedPR) (ops : List StoreOp) :
    ((∃ e ∈ c.watchedPRs, natKey e = natKey pr) →
      Config.AddPR c pr = (c, false)) ∧
    ((¬ ∃ e ∈ c.watchedPRs, natKey e = natKey pr) →
      Config.AddPR c pr = ({ c with watchedPRs := c.watchedPRs ++ [pr] }, true)) ∧
    ((c.watchedPRs.map natKey).Nodup →
      ((applyOps c ops).watchedPRs.map natKey).Nodup) :=
  ⟨addPR_of_present c pr, addPR_of_absent c pr, fun h => applyOps_nodup ops c h⟩

/-- C6 witness: adding the already-watched `prB` to `cfgW` is a refused
no-op, and a concrete add/remove sequence keeps the keys duplicate-free. -/
theorem C6_witness :
    Config.AddPR cfgW prB = (cfgW, false) ∧
    ((applyOps cfgW [StoreOp.add prA,
      StoreOp.remove "octo" "hello" 2]).watchedPRs.map natKey).Nodup := by
  have h := C6_store_key_unique cfgW prB
    [StoreOp.add prA, StoreOp.remove "octo" "hello" 2]
  exact ⟨h.1 ⟨prB, by decide, rfl⟩, h.2.2 (by decide)⟩

/-- C7 counterexample: under the `changed` inclusion filter, the
never-checked entity `prA` — whose freshly fetched normalized state
(`success`) differs from its stored state (empty) — is NOT included, even
though both fetches succeed (its state is committed), refuting "include
exactly the entities whose freshly fetched state differs from their
previously stored state". -/
theorem C7_counterexample :
    (broadcastStep envW sinkOK "changed" false 5 prA).included = none ∧
    NormalizeState "Success" ≠ NormalizeState prA.lastKnownState ∧
    (broadcastStep envW sinkOK "changed" false 5 prA).pr.lastKnownState =
      "success" := by
  exact ⟨rfl, by decide, rfl⟩

/-- C7 (amended): for every entity whose fetches succeed, broadcast commits
the fetched revision, normalized state and timestamp regardless of the
filter outcome; `all` includes every such entity; `changed` includes exactly
the entities whose stored normalized state is non-empty and differs from
the freshly fetched one; `failing` includes exactly those whose fetched
state is `failure` or `error`. -/
theorem C7_amended_broadcast (env : GitHubEnv) (notifier : Notifier)
    (filter : String) (dryRun : Bool) (now : Nat) (pr : WatchedPR)
    (ghPR : PullRequest) (status : CombinedStatus)
    (hpr : env.getPullRequest pr.owner pr.repo pr.number = some ghPR)
    (hst : env.getCombinedStatus pr.owner pr.repo ghPR.headSHA = some status) :
    ((broadcastStep env notifier filter dryRun now pr).pr.lastKnownSHA =
        ghPR.headSHA ∧
      (broadcastStep env notifier filter dryRun now pr).pr.lastKnownState =
        NormalizeState status.state ∧
      (broadcastStep env notifier filter dryRun now pr).pr.lastChecked = now) ∧
    (filter = "all" →
      (broadcastStep env notifier filter dryRun now pr).included.isSome = true) ∧
    (filter = "changed" →
      ((broadcastStep env notifier filter dryRun now pr).included.isSome = true ↔
        (NormalizeState pr.lastKnownState ≠ "" ∧
         NormalizeState pr.lastKnownState ≠ NormalizeState status.state))) ∧
    (filter = "failing" →
      ((broadcastStep env notifier filter dryRun now pr).included.isSome = true ↔
        (NormalizeState status.state = "failure" ∨
         NormalizeState status.state = "error"))) := by
  refine ⟨broadcast_commit env notifier filter dryRun now pr ghPR status hpr hst,
    ?_, ?_, ?_⟩
  · rintro rfl
    exact broadcast_included_all env notifier dryRun now pr ghPR status hpr hst
  · rintro rfl
    exact broadcast_included_changed env notifier dryRun now pr ghPR status hpr hst
  · rintro rfl
    exact broadcast_included_failing env notifier dryRun now pr ghPR status hpr hst

/-- C7 witness: broadcasting with filter `failing` includes `prB` (fetched
state `failure`) and commits its observed state. -/
theorem C7_witness :
    (broadcastStep envW sinkOK "failing" false 5 prB).included.isSome = true ∧
    (broadcastStep envW sinkOK "failing" false 5 prB).pr.lastKnownState =
      NormalizeState "failure" := by
  have h := C7_amended_broadcast envW sinkOK "failing" false 5 prB
    ⟨2, "Title B", "shaB"⟩ ⟨"failure", "shaB"⟩ (by decide) (by decide)
  exact ⟨(h.2.2.2 rfl).mpr (Or.inl (by decide)), h.1.2.1⟩

/-- C8: loading defaults absent fields: a zero poll interval becomes the
fixed default 20 (non-zero values are kept), and the notification filter is
normalized — an empty or otherwise invalid value (judged after lowercasing
and trimming) becomes `change`, a valid value becomes its lowercased and
trimmed form. -/
theorem C8_load_defaults (cfg : Config) (v : String) :
    (cfg.pollIntervalSeconds = 0 →
      (loadApplyDefaults cfg).pollIntervalSeconds = 20) ∧
    (cfg.pollIntervalSeconds ≠ 0 →
      (loadApplyDefaults cfg).pollIntervalSeconds = cfg.pollIntervalSeconds) ∧
    (loadApplyDefaults cfg).notificationFilter =
      normalizeNotificationFilter cfg.notificationFilter ∧
    normalizeNotificationFilter "" = NotificationFilterChange ∧
    (IsValidNotificationFilter v = false →
      normalizeNotificationFilter v = NotificationFilterChange) ∧
    (IsValidNotificationFilter v = true →
      normalizeNotificationFilter v = ⟨toLowerStr (trimSpace v.data)⟩) := by
  refine ⟨?_, ?_, rfl, by decide, normalizeNotificationFilter_of_invalid v,
    normalizeNotificationFilter_of_valid v⟩
  · intro h
    simp [loadApplyDefaults, h]
  · intro h
    simp [loadApplyDefaults, h]

/-- C8 witness: a parsed configuration with a zero interval and the filter
string `" FAIL "` loads with interval 20 and filter `fail`; the unrecognized
filter `"xyz"` normalizes to `change`. -/
theorem C8_witness :
    (loadApplyDefaults cfgZero).pollIntervalSeconds = 20 ∧
    (loadApplyDefaults cfgZero).notificationFilter =
      normalizeNotificationFilter " FAIL " ∧
    normalizeNotificationFilter "xyz" = NotificationFilterChange := by
  have h := C8_load_defaults cfgZero "xyz"
  exact ⟨h.1 rfl, h.2.2.1, h.2.2.2.2.1 (by decide)⟩

/-- C9: if the freshly fetched normalized state equals the stored normalized
state, the check emits nothing, for every mode; hence a second consecutive
check against an unchanged upstream state emits nothing. -/
theorem C9_no_change_idempotent (env : GitHubEnv) (notifier : Notifier)
    (filter : String) (now : Nat) (pr : WatchedPR) (ghPR : PullRequest)
    (status : CombinedStatus)
    (hpr : env.getPullRequest pr.owner pr.repo pr.number = some ghPR)
    (hst : env.getCombinedStatus pr.owner pr.repo ghPR.headSHA = some status) :
    (NormalizeState status.state = NormalizeState pr.lastKnownState →
      (Watcher.checkPR env notifier filter now pr).event = none) ∧
    ∀ (env2 : GitHubEnv) (now2 : Nat) (ghPR2 : PullRequest)
        (status2 : CombinedStatus),
      env2.getPullRequest (Watcher.checkPR env notifier filter now pr).pr.owner
        (Watcher.checkPR env notifier filter now pr).pr.repo
        (Watcher.checkPR env notifier filter now pr).pr.number = some ghPR2 →
      env2.getCombinedStatus (Watcher.checkPR env notifier filter now pr).pr.owner
        (Watcher.checkPR env notifier filter now pr).pr.repo ghPR2.headSHA =
        some status2 →
      NormalizeState status2.state = NormalizeState status.state →
      (Watcher.checkPR env2 notifier filter now2
        (Watcher.checkPR env notifier filter now pr).pr).event = none := by
  constructor
  · intro heq
    exact checkPR_event_none_of_eq env notifier filter now pr ghPR status
      hpr hst heq.symm
  · intro env2 now2 ghPR2 status2 hpr2 hst2 hsame
    apply checkPR_event_none_of_eq env2 notifier filter now2 _ ghPR2 status2
      hpr2 hst2
    have hstate := (checkPR_commit env notifier filter now pr ghPR status
      hpr hst).2.1
    rw [hstate, hsame.symm, normalizeState_idem]

/-- C9 witness: checking `prB` twice against the same upstream state: the
second check emits nothing. -/
theorem C9_witness :
    (Watcher.checkPR envW sinkOK "change" 6
      (Watcher.checkPR envW sinkOK "change" 5 prB).pr).event = none :=
  (C9_no_change_idempotent envW sinkOK "change" 5 prB ⟨2, "Title B", "shaB"⟩
    ⟨"failure", "shaB"⟩ (by decide) (by decide)).2 envW 6
    ⟨2, "Title B", "shaB"⟩ ⟨"failure", "shaB"⟩ (by decide) (by decide) rfl

end PRW
